import Mathlib

/-!
Verification development for the unified query and aggregation layer of the
datalake transaction API (Django app `transactions`).

The shallow embedding below follows `transactions/views.py` and
`transactions/pagination.py`:

* a `Record` is one transaction row; every field is optional, a `none`
  standing for the NaN / NULL of the backends;
* `apply_filters` embeds `BaseParquetView.apply_filters` (pandas semantics:
  `isin` and comparisons are false on missing values; a referenced column
  that is absent from the frame raises, modelled by `Except.error`);
* `build_conds` / `build_sql_query` embed `BaseDatabaseTableView.build_sql_query`
  (string concatenation of the WHERE clauses, in source order);
* `db_survivors` gives the relational semantics of the generated query:
  standard SQL three-valued logic (a comparison with NULL is not true), the
  membership list being re-parsed from the rendered text exactly as the
  database lexer would read it; a query that does not parse or references an
  unknown column makes `load_table_data` return an empty frame;
* numbers are modelled by `Rat` (the float values occurring here are finite
  decimals), machine floats carry no overflow in the ranges the API handles.
-/

/-- One transaction record. Every field is optional: `none` models the
NaN/NULL of the pandas and SQL backends. Only the fields the filter,
metric and sort code touches are carried. -/
structure Record where
  PAYMENT_METHOD : Option String
  LOCATION_COUNTRY : Option String
  PRODUCT_CATEGORY : Option String
  STATUS : Option String
  AMOUNT_USD : Option ℚ
  CUSTOMER_RATING : Option ℚ
  TIMESTAMP : Option ℚ
  TRANSACTION_TYPE : Option String
  USER_ID : Option String
  PRODUCT_ID : Option String
  QUANTITY : Option ℚ
  deriving DecidableEq

/-- A loaded frame: the column set of the merged data plus its rows.
A column can be present while single rows hold `none` in it. -/
structure DataFrame where
  cols : List String
  rows : List Record
  deriving DecidableEq

/-- The request query parameters read by both translators, already split the
way Django hands them out: `getlist` values for the membership filters, the
raw single string for the numeric ones (`float` parsing happens inside the
translators, as in the code). `none` means the key is absent. -/
structure QueryParams where
  payment_method : Option (List String) := none
  country : Option (List String) := none
  product_category : Option (List String) := none
  status : Option (List String) := none
  amount_gt : Option String := none
  amount_lt : Option String := none
  amount_eq : Option String := none
  rating_gt : Option String := none
  rating_lt : Option String := none
  rating_eq : Option String := none
  deriving DecidableEq

/-- `if not query_params:` guard of both translators. -/
def QueryParams.isEmptyQP (qp : QueryParams) : Bool :=
  qp.payment_method.isNone && qp.country.isNone && qp.product_category.isNone &&
  qp.status.isNone && qp.amount_gt.isNone && qp.amount_lt.isNone &&
  qp.amount_eq.isNone && qp.rating_gt.isNone && qp.rating_lt.isNone &&
  qp.rating_eq.isNone

/- ### Python float parsing, restricted to finite decimal notation -/
def allDigits (cs : List Char) : Bool := cs.all Char.isDigit

def natOfDigits (cs : List Char) : ℕ :=
  cs.foldl (fun a c => 10 * a + (c.toNat - 48)) 0

/-- Split a char list at the first occurrence of `c` (if any). -/
def splitOnce (c : Char) : List Char → List Char × Option (List Char)
  | [] => ([], none)
  | a :: r =>
    if a = c then ([], some r)
    else
      let p := splitOnce c r
      (a :: p.1, p.2)

def parseExpPart (cs : List Char) : Option ℤ :=
  match cs with
  | '+' :: r => if !r.isEmpty && allDigits r then some (natOfDigits r) else none
  | '-' :: r => if !r.isEmpty && allDigits r then some (-(natOfDigits r : ℤ)) else none
  | r => if !r.isEmpty && allDigits r then some (natOfDigits r) else none

def isSpaceChar (c : Char) : Bool :=
  c = ' ' || c = '\t' || c = '\n' || c = '\r'

/-- Strip surrounding whitespace, as `float(...)` does. -/
def trimChars (cs : List Char) : List Char :=
  ((cs.dropWhile isSpaceChar).reverse.dropWhile isSpaceChar).reverse

/-- Case-fold the exponent marker; no other letter is accepted by the
grammar below anyway. -/
def foldE (c : Char) : Char := if c = 'E' then 'e' else c

/-- Model of Python `float(s)` restricted to its plain finite-decimal
fragment: optional sign, digits with an optional fraction part, optional
exponent, surrounding whitespace stripped. Every string this function
accepts is accepted by `float` with the same (exact) value. The converse
does not hold: `float` also accepts the non-finite spellings (`inf`, `nan`
and variants), which a rational-valued model cannot carry, and
underscore-grouped digits, which it does not model — those map to `none`
here although the program would apply the clause. Theorems whose truth
needs a value to be accepted therefore hypothesize acceptance by this
fragment (`(parseFloat s).isSome`); the clause-drop theorems concern
values this grammar rejects. -/
def parseFloat (s : String) : Option ℚ :=
  let t := (trimChars s.data).map foldE
  let (sgn, body) :=
    match t with
    | '+' :: r => ((1 : ℚ), r)
    | '-' :: r => ((-1 : ℚ), r)
    | r => ((1 : ℚ), r)
  let (mant, expPart) := splitOnce 'e' body
  let (ip, fpOpt) := splitOnce '.' mant
  let fp := fpOpt.getD []
  if allDigits ip && allDigits fp && (!ip.isEmpty || !fp.isEmpty) then
    let base : ℚ := (natOfDigits ip : ℚ) + (natOfDigits fp : ℚ) / 10 ^ fp.length
    match expPart with
    | none => some (sgn * base)
    | some e =>
      match parseExpPart e with
      | some z => some (sgn * base * (10 : ℚ) ^ z)
      | none => none
  else none

/- ### Clause predicates (pandas semantics) -/
/-- The three numeric comparison kinds of the filter language. -/
inductive CmpOp where
  | gtOp
  | ltOp
  | eqOp
  deriving DecidableEq

/-- pandas `Series.isin`: a missing value is in no list. -/
def optIn (v : Option String) (vals : List String) : Bool :=
  match v with
  | some s => vals.contains s
  | none => false

/-- pandas comparison of a possibly missing value with a constant: NaN
compares false under `>`, `<` and `==`. -/
def pdCmp (op : CmpOp) (v : Option ℚ) (c : ℚ) : Bool :=
  match v with
  | none => false
  | some x =>
    match op with
    | .gtOp => decide (c < x)
    | .ltOp => decide (x < c)
    | .eqOp => decide (x = c)

def keyError (col : String) : String := "KeyError: " ++ col

/-- `df[col] ...` step: pandas raises a `KeyError` if the referenced column
is absent from the frame, independent of how many rows are left. -/
def whereCol (cols : List String) (col : String) (p : Record → Bool)
    (rows : List Record) : Except String (List Record) :=
  if col ∈ cols then .ok (rows.filter p) else .error (keyError col)

/-- One membership filter step of `BaseParquetView.apply_filters`
(`filtered_df[filtered_df[col].isin(values)]`, guarded by key presence). -/
def memMembership (cols : List String) (col : String) (get : Record → Option String)
    (param : Option (List String)) (rows : List Record) : Except String (List Record) :=
  match param with
  | none => .ok rows
  | some vals => whereCol cols col (fun r => optIn (get r) vals) rows

/-- One numeric filter step of `BaseParquetView.apply_filters`: `float(...)`
is attempted first; a `ValueError` silently skips the clause
(`except ... : pass`); the rating clauses additionally apply the
`.notna()` guard the code puts in front of the comparison. -/
def memNumeric (cols : List String) (col : String) (get : Record → Option ℚ)
    (op : CmpOp) (guarded : Bool) (param : Option String) (rows : List Record) :
    Except String (List Record) :=
  match param with
  | none => .ok rows
  | some s =>
    match parseFloat s with
    | none => .ok rows
    | some c =>
      whereCol cols col
        (fun r => (if guarded then (get r).isSome else true) && pdCmp op (get r) c) rows

/-- Embedding of `BaseParquetView.apply_filters` (views.py lines 101 to 182):
the ten clause steps in source order, over pandas semantics. An uncaught
pandas exception (missing column) is an `Except.error`, which the caller
`BaseParquetView.get` turns into the 500 response. -/
def apply_filters (df : DataFrame) (qp : QueryParams) : Except String (List Record) :=
  if qp.isEmptyQP then .ok df.rows
  else do
    let r1 ← memMembership df.cols "PAYMENT_METHOD" (fun r => r.PAYMENT_METHOD)
      qp.payment_method df.rows
    let r2 ← memMembership df.cols "LOCATION_COUNTRY" (fun r => r.LOCATION_COUNTRY)
      qp.country r1
    let r3 ← memMembership df.cols "PRODUCT_CATEGORY" (fun r => r.PRODUCT_CATEGORY)
      qp.product_category r2
    let r4 ← memMembership df.cols "STATUS" (fun r => r.STATUS) qp.status r3
    let r5 ← memNumeric df.cols "AMOUNT_USD" (fun r => r.AMOUNT_USD) .gtOp false
      qp.amount_gt r4
    let r6 ← memNumeric df.cols "AMOUNT_USD" (fun r => r.AMOUNT_USD) .ltOp false
      qp.amount_lt r5
    let r7 ← memNumeric df.cols "AMOUNT_USD" (fun r => r.AMOUNT_USD) .eqOp false
      qp.amount_eq r6
    let r8 ← memNumeric df.cols "CUSTOMER_RATING" (fun r => r.CUSTOMER_RATING) .gtOp true
      qp.rating_gt r7
    let r9 ← memNumeric df.cols "CUSTOMER_RATING" (fun r => r.CUSTOMER_RATING) .ltOp true
      qp.rating_lt r8
    let r10 ← memNumeric df.cols "CUSTOMER_RATING" (fun r => r.CUSTOMER_RATING) .eqOp true
      qp.rating_eq r9
    return r10

/- ### The SQL side: `BaseDatabaseTableView.build_sql_query` -/
/-- The single quote character used by the f-string interpolation
`f"'{method}'"` of the code and by the SQL string-literal lexer. -/
def squote : Char := '\x27'

def squoteStr : String := "\x27"

/-- The backslash, which the default lexer of MySQL and MariaDB treats as
an escape character inside string literals. -/
def bslash : Char := '\\'

/-- A value the renderer can embed in a quoted SQL literal without changing
its lexical structure: it contains neither the quote character nor the
escape character. -/
def sqlSafeVal (v : String) : Bool :=
  !v.data.contains squote && !v.data.contains bslash

/-- `f"'{v}'"`: the code wraps each membership value in single quotes with
no escaping whatsoever. -/
def quoteVal (v : String) : String := squoteStr ++ v ++ squoteStr

/-- `', '.join(...)` over the quoted values. -/
def renderInList : List String → String
  | [] => ""
  | [v] => quoteVal v
  | v :: vs => quoteVal v ++ ", " ++ renderInList vs

/-- Decimal rendering of a rational, the shape Python f-strings give to the
finite-decimal floats the filters carry (`5.0`, `-3.25`, ...). Fractions
longer than the fuel are truncated; only the query text of membership
examples is ever inspected literally. -/
def fracDigitsAux : ℕ → ℚ → List Char
  | 0, _ => []
  | fuel + 1, q =>
    if q = 0 then []
    else
      let d := (⌊q * 10⌋).toNat
      Char.ofNat (48 + d) :: fracDigitsAux fuel (q * 10 - (d : ℚ))

def floatStr (q : ℚ) : String :=
  let sgn := if q < 0 then "-" else ""
  let a := |q|
  let ip := (⌊a⌋).toNat
  let ds := fracDigitsAux 40 (a - (ip : ℚ))
  sgn ++ ip.repr ++ "." ++ (if ds.isEmpty then "0" else String.mk ds)

/-- One WHERE condition as `build_sql_query` assembles it: a membership
clause carries the raw caller values (interpolated on rendering), a
comparison clause carries the parsed constant and, for the rating clauses,
the `AND col IS NOT NULL` guard the code appends. -/
inductive Cond where
  | inList (col : String) (vals : List String)
  | cmp (col : String) (op : CmpOp) (c : ℚ) (guarded : Bool)
  deriving DecidableEq

def opStr : CmpOp → String
  | .gtOp => ">"
  | .ltOp => "<"
  | .eqOp => "="

/-- The exact text `build_sql_query` appends to `conditions` for one clause. -/
def renderCond : Cond → String
  | .inList col vals => col ++ " IN (" ++ renderInList vals ++ ")"
  | .cmp col op c guarded =>
    col ++ " " ++ opStr op ++ " " ++ floatStr c ++
      (if guarded then " AND " ++ col ++ " IS NOT NULL" else "")

/-- The membership contribution of one query parameter (empty when the key
is absent). -/
def mCond (col : String) (param : Option (List String)) : List Cond :=
  match param with
  | none => []
  | some vals => [.inList col vals]

/-- The numeric contribution of one query parameter: absent key or failed
`float(...)` contribute nothing (`except ... : pass`). -/
def nCond (col : String) (op : CmpOp) (guarded : Bool) (param : Option String) : List Cond :=
  match param with
  | none => []
  | some s =>
    match parseFloat s with
    | none => []
    | some c => [.cmp col op c guarded]

/-- The `conditions` list of `build_sql_query` (views.py lines 255 to 335),
in source order. -/
def build_conds (qp : QueryParams) : List Cond :=
  mCond "PAYMENT_METHOD" qp.payment_method ++
  mCond "LOCATION_COUNTRY" qp.country ++
  mCond "PRODUCT_CATEGORY" qp.product_category ++
  mCond "STATUS" qp.status ++
  nCond "AMOUNT_USD" .gtOp false qp.amount_gt ++
  nCond "AMOUNT_USD" .ltOp false qp.amount_lt ++
  nCond "AMOUNT_USD" .eqOp false qp.amount_eq ++
  nCond "CUSTOMER_RATING" .gtOp true qp.rating_gt ++
  nCond "CUSTOMER_RATING" .ltOp true qp.rating_lt ++
  nCond "CUSTOMER_RATING" .eqOp true qp.rating_eq

def joinAnd : List String → String
  | [] => ""
  | [s] => s
  | s :: rest => s ++ " AND " ++ joinAnd rest

/-- Embedding of `build_sql_query`: the full query text, values concatenated
straight into the string. -/
def build_sql_query (table : String) (qp : QueryParams) : String :=
  let base := "SELECT * FROM " ++ table
  if qp.isEmptyQP then base
  else
    match build_conds qp with
    | [] => base
    | conds => base ++ " WHERE " ++ joinAnd (conds.map renderCond)

/- ### What the database does with the generated text -/
/-- Read one single-quoted SQL string literal body as the default lexer of
the store does: an unescaped quote closes the literal, and a backslash
escapes the character after it — in particular a backslash arriving at the
end of an interpolated value swallows the closing quote, so the literal
never closes and the query fails. The model keeps the escaped character
itself (the control-character escape table is immaterial here: the
renderer emits no escapes and the round-trip lemma excludes backslashes
from the values). -/
def readLitAux : Bool → List Char → Option (List Char × List Char)
  | _, [] => none
  | true, d :: cs => (readLitAux false cs).map (fun p => (d :: p.1, p.2))
  | false, c :: cs =>
    if c = squote then some ([], cs)
    else if c = bslash then readLitAux true cs
    else (readLitAux false cs).map (fun p => (c :: p.1, p.2))

def readLit (cs : List Char) : Option (List Char × List Char) := readLitAux false cs

/-- Parse the parenthesised list body back into string values: quoted
literals separated by a comma and a space, exactly the shape the renderer
emits for clean values. Anything else — including the empty body of
`IN ()` — is a syntax error. -/
def parseInChars : ℕ → List Char → Option (List String)
  | 0, _ => none
  | fuel + 1, cs =>
    match cs with
    | [] => none
    | c :: rest =>
      if c = squote then
        match readLit rest with
        | none => none
        | some (content, rest2) =>
          match rest2 with
          | [] => some [String.mk content]
          | ',' :: ' ' :: rest3 => (parseInChars fuel rest3).map (String.mk content :: ·)
          | _ => none
      else none

def parseInList (s : String) : Option (List String) :=
  parseInChars (s.data.length + 1) s.data

/-- The string column a membership condition reads. -/
def strField (col : String) (r : Record) : Option String :=
  if col = "PAYMENT_METHOD" then r.PAYMENT_METHOD
  else if col = "LOCATION_COUNTRY" then r.LOCATION_COUNTRY
  else if col = "PRODUCT_CATEGORY" then r.PRODUCT_CATEGORY
  else if col = "STATUS" then r.STATUS
  else none

/-- The numeric column a comparison condition reads. -/
def numField (col : String) (r : Record) : Option ℚ :=
  if col = "AMOUNT_USD" then r.AMOUNT_USD
  else if col = "CUSTOMER_RATING" then r.CUSTOMER_RATING
  else none

/-- SQL comparison under three-valued logic: a comparison with NULL is
unknown, and WHERE keeps only rows whose condition is true. -/
def sqlCmp (op : CmpOp) (v : Option ℚ) (c : ℚ) : Bool :=
  match v with
  | none => false
  | some x =>
    match op with
    | .gtOp => decide (c < x)
    | .ltOp => decide (x < c)
    | .eqOp => decide (x = c)

/-- Row semantics of one rendered condition, as the store evaluates the text
it received: the membership list is what the SQL lexer reads back from the
rendered characters (`none` when that text does not lex, which fails the
whole query); an unknown column also fails the query. -/
def condSem (cols : List String) : Cond → Option (Record → Bool)
  | .inList col vals =>
    if col ∈ cols then
      (parseInList (renderInList vals)).map (fun pvs => fun r => optIn (strField col r) pvs)
    else none
  | .cmp col op c guarded =>
    if col ∈ cols then
      some (fun r => sqlCmp op (numField col r) c &&
        (if guarded then (numField col r).isSome else true))
    else none

def optionsAll : List (Option α) → Option (List α)
  | [] => some []
  | none :: _ => none
  | some a :: rest => (optionsAll rest).map (fun l => a :: l)

/-- The record set the relational path hands back for a query parameter set:
the rows of the store satisfying every rendered WHERE condition. When the
generated text is invalid (lexing failure of an interpolated value, unknown
column), `pd.read_sql` raises and `load_table_data` returns an empty frame,
so the caller sees no records. SQL imposes no row order without ORDER BY,
so the survivors are given in table order. -/
def db_survivors (df : DataFrame) (qp : QueryParams) : List Record :=
  match optionsAll ((build_conds qp).map (condSem df.cols)) with
  | none => []
  | some ps => df.rows.filter (fun r => ps.all (fun p => p r))

/- ### Stable sorting and key extraction models -/
/-- Insert into an already processed suffix, placing `a` in front of the
first element it relates to. Used through `sortBy`. -/
def insertBy (le : α → α → Bool) (a : α) : List α → List α
  | [] => [a]
  | b :: t => if le a b then a :: b :: t else b :: insertBy le a t

/-- Model of a stable sort (Python `sorted` is timsort, guaranteed stable):
with `le a b` meaning `a` may precede `b`, equal elements keep their input
order because each element is inserted in front of the elements it ties
with that came later in the input. -/
def sortBy (le : α → α → Bool) (l : List α) : List α :=
  l.foldr (insertBy le) []

/-- Insert a key into a strictly ascending list, keeping it strictly
ascending and duplicate free. -/
def insertSortedAsc [LinearOrder α] (a : α) : List α → List α
  | [] => [a]
  | b :: t =>
    if a < b then a :: b :: t
    else if a = b then b :: t
    else b :: insertSortedAsc a t

/-- The ascending duplicate-free key list a pandas `groupby` produces
(`sort=True` is the default, so group keys come out ascending). -/
def sortedKeys [LinearOrder α] (l : List α) : List α :=
  l.foldr insertSortedAsc []

/- ### Pagination: `CustomTransactionPagination` over the DRF page machinery -/
/-- `get_page_size`: the `page_size` query parameter must be a positive
integer and is capped at `max_page_size = 10`; anything else falls back to
the configured `page_size = 10`. The parameter arrives already
integer-parsed, `none` covering both an absent and an unparseable value. -/
def pageSize (psParam : Option ℤ) : ℕ :=
  match psParam with
  | some n => if 0 < n then min n.toNat 10 else 10
  | none => 10

/-- `Paginator.num_pages` of the page machinery: `ceil(max(1, count) / per_page)`,
so an empty item list still has one (empty) page. -/
def numPages (count ps : ℕ) : ℕ :=
  max 1 ((count + ps - 1) / ps)

/-- Embedding of `paginate_queryset` as `CustomTransactionPagination`
inherits it from the framework (it overrides only the response shape): an
out-of-range or sub-1 page number raises the invalid-page error (`NotFound`),
otherwise the page slice `items[(page-1)*ps : page*ps]` is returned. -/
def paginate_queryset (items : List Record) (page : ℤ) (psParam : Option ℤ) :
    Except String (List Record) :=
  let ps := pageSize psParam
  let np := numPages items.length ps
  if page < 1 then .error "Invalid page."
  else if (np : ℤ) < page then .error "Invalid page."
  else .ok ((items.drop ((page - 1).toNat * ps)).take ps)

/-- The pagination block of `CustomTransactionPagination.get_paginated_response`
plus the page items (serialization is field selection and is not modelled). -/
structure PageResult where
  page : ℤ
  page_size : ℕ
  total_pages : ℕ
  total_count : ℕ
  offset : ℤ
  results : List Record
  deriving DecidableEq

/-- The three response shapes `BaseParquetView.get` can produce: the early
empty-frame payload, a paginated page, or the catch-all 500
`Internal server error` payload produced by its `except Exception` arm. -/
inductive GetResponse where
  | emptyOk
  | pageOk (p : PageResult)
  | internalError (msg : String)
  deriving DecidableEq

/-- Embedding of `BaseParquetView.get` on an already loaded frame: empty
frame short-circuits; then filters, then pagination; any exception of
either step surfaces as the 500 response. -/
def parquet_get (df : DataFrame) (qp : QueryParams) (page : ℤ) (psParam : Option ℤ) :
    GetResponse :=
  if df.rows.isEmpty then .emptyOk
  else
    match apply_filters df qp with
    | .error e => .internalError e
    | .ok rows =>
      match paginate_queryset rows page psParam with
      | .error e => .internalError e
      | .ok items =>
        .pageOk
          { page := page
            page_size := pageSize psParam
            total_pages := numPages rows.length (pageSize psParam)
            total_count := rows.length
            offset := (page - 1) * (pageSize psParam : ℤ)
            results := items }

/- ### Loading partition files: `BaseParquetView.load_parquet_files` -/
/-- The read loop over the partition files of a folder: a file that fails to
read (`except Exception: continue`) is skipped, a readable one contributes
its frame. `none` stands for an unreadable partition. -/
def readLoop : List (Option (List Record)) → List (List Record)
  | [] => []
  | none :: rest => readLoop rest
  | some part :: rest => part :: readLoop rest

/-- `sort_values` comparison for the final descending TIMESTAMP sort:
missing timestamps go last; the backend fixes no order among ties, the
model picks the stable one (only permutation facts are used). -/
def tsDescLe (a b : Record) : Bool :=
  match a.TIMESTAMP, b.TIMESTAMP with
  | some x, some y => decide (y ≤ x)
  | some _, none => true
  | none, _ => false

/-- Embedding of `load_parquet_files`: read every partition, skipping the
unreadable ones; with no readable partition the frame is empty; otherwise
the frames are concatenated and, when the TIMESTAMP column is present,
sorted descending by it. -/
def load_parquet_files (hasTs : Bool) (parts : List (Option (List Record))) :
    List Record :=
  match readLoop parts with
  | [] => []
  | dfs => if hasTs then sortBy tsDescLe dfs.flatten else dfs.flatten

/- ### Metrics: shared helpers -/
/-- Floor of a rational, written with `Int.fdiv` so that concrete values
reduce in the kernel. -/
def qfloor (q : ℚ) : ℤ := q.num.fdiv (q.den : ℤ)

/-- `round(x, 2)`: rounding to two decimal places, `round x = ⌊x + 1/2⌋`
scaled by 100. Tie behaviour of Python floats is representation dependent;
the model rounds the exact rational. -/
def round2 (q : ℚ) : ℚ := ((qfloor (100 * q + 1 / 2) : ℤ) : ℚ) / 100

/-- pandas `Series.sum()` over AMOUNT_USD: missing amounts are skipped
(`skipna` default), so they contribute 0; the empty sum is 0. -/
def sumAmounts (l : List Record) : ℚ :=
  l.foldr (fun r acc => r.AMOUNT_USD.getD 0 + acc) 0

/- ### `RecentSpendingMetricsView.get` -/
/-- Embedding of the windowed-spend computation (views.py lines 579 to 629)
on the merged record list, with `now` the single `datetime.now()` sample of
the request and `minutes` the parsed window length: drop rows with missing
TIMESTAMP, keep those at or after `now - minutes`, keep purchase and
payment rows, then report the rounded amount sum and the row count. -/
def recentSpend (now : ℚ) (minutes : ℤ) (records : List Record) : ℚ × ℕ :=
  let windowStart := now - (minutes : ℚ) * 60
  let withTs := records.filter (fun r => r.TIMESTAMP.isSome)
  let recent := withTs.filter (fun r =>
    match r.TIMESTAMP with
    | some t => decide (windowStart ≤ t)
    | none => false)
  let spending := recent.filter (fun r =>
    (r.TRANSACTION_TYPE == some "purchase") || (r.TRANSACTION_TYPE == some "payment"))
  (round2 (sumAmounts spending), spending.length)

/- ### `UserSpendingMetricsView.get` -/
/-- One entry of the `users` list of the user-spend response. -/
structure UserResult where
  user_id : String
  spending_by_type : List (String × ℚ)
  total_spending : ℚ
  deriving DecidableEq

/-- Rows that survive `df.dropna(subset=required_columns)` for the
user-spend metric. -/
def userValidRow (r : Record) : Bool :=
  r.USER_ID.isSome && r.TRANSACTION_TYPE.isSome && r.AMOUNT_USD.isSome

/-- The `users` entry built for one user id: the rows of that user among
the valid rows, the per-type rounded sums with ascending type keys (the
pandas group order), and the grand total summed once over the raw rows and
then rounded. -/
def mkUserResult (valid : List Record) (u : String) : UserResult :=
  let rows := valid.filter (fun r => r.USER_ID == some u)
  { user_id := u
    spending_by_type := (sortedKeys (rows.filterMap (fun r => r.TRANSACTION_TYPE))).map
      (fun ty => (ty, round2 (sumAmounts (rows.filter (fun r => r.TRANSACTION_TYPE == some ty)))))
    total_spending := round2 (sumAmounts rows) }

/-- Embedding of `UserSpendingMetricsView.get` (views.py lines 644 to 689):
drop rows missing USER_ID, TRANSACTION_TYPE or AMOUNT_USD; group by
`(USER_ID, TRANSACTION_TYPE)` with ascending group keys (the pandas
default), so the per-user entries are built in ascending USER_ID order;
finally the stable `sorted(..., reverse=True)` on the grand total. -/
def userSpend (records : List Record) : List UserResult :=
  sortBy (fun a b => decide (b.total_spending ≤ a.total_spending))
    ((sortedKeys ((records.filter userValidRow).filterMap (fun r => r.USER_ID))).map
      (mkUserResult (records.filter userValidRow)))

/- ### `TopProductsMetricsView.get` -/
/-- pandas `DataFrame.head(n)`: the first `n` rows for `n ≥ 0`, and all rows
but the last `|n|` for negative `n`. -/
def pandasHead (n : ℤ) (l : List α) : List α :=
  if 0 ≤ n then l.take n.toNat else l.take (l.length - (-n).toNat)

/-- Python `int(...)` truncation used on the aggregated quantity. -/
def truncQ (q : ℚ) : ℤ := q.num / (q.den : ℤ)

/-- One entry of the `products` list (quantity and amount columns present,
the schema of the transaction sources). -/
structure ProductEntry where
  product_id : String
  quantity_sold : ℤ
  total_revenue : ℚ
  deriving DecidableEq

/-- The `products` payload together with the echoed `limit`. -/
structure TopProductsResult where
  products : List ProductEntry
  limit : ℤ
  deriving DecidableEq

def sumQuantities (l : List Record) : ℚ :=
  l.foldr (fun r acc => r.QUANTITY.getD 0 + acc) 0

/-- The per-product aggregation rows of `purchases_df.groupby(PRODUCT_ID)`,
keys ascending (pandas default). -/
def productAggs (purchases : List Record) : List (String × ℚ × ℚ) :=
  (sortedKeys (purchases.filterMap (fun r => r.PRODUCT_ID))).map (fun p =>
    let rows := purchases.filter (fun r => r.PRODUCT_ID == some p)
    (p, sumQuantities rows, sumAmounts rows))

/-- Embedding of `TopProductsMetricsView.get` (views.py lines 704 to 782) on
the merged records, QUANTITY and AMOUNT_USD columns present: `limit` is the
parsed query parameter, defaulted to 10 when absent; keep purchases; if
there are none the product list is empty; otherwise aggregate per product,
sort descending on summed QUANTITY and take `head(limit)`. The backend
fixes no tie order in `sort_values`; the model uses the stable order, and
the claims checked against it do not depend on ties. -/
def topProducts (limitParam : Option ℤ) (records : List Record) : TopProductsResult :=
  let limit := limitParam.getD 10
  let purchases := records.filter (fun r => r.TRANSACTION_TYPE == some "purchase")
  if purchases.isEmpty then { products := [], limit := limit }
  else
    let sorted := sortBy (fun a b => decide (b.2.1 ≤ a.2.1)) (productAggs purchases)
    let top := pandasHead limit sorted
    { products := top.map (fun e =>
        { product_id := e.1, quantity_sold := truncQ e.2.1, total_revenue := round2 e.2.2 })
      limit := limit }

/- ### Per-clause characterisation of the two translators -/
/-- The row predicate one membership step applies (identically true when the
key is absent). -/
def memStepPred (get : Record → Option String) (param : Option (List String)) :
    Record → Bool :=
  match param with
  | none => fun _ => true
  | some vals => fun r => optIn (get r) vals

/-- The row predicate one numeric step applies (identically true when the
key is absent or its value does not parse). -/
def numStepPred (get : Record → Option ℚ) (op : CmpOp) (guarded : Bool)
    (param : Option String) : Record → Bool :=
  match param with
  | none => fun _ => true
  | some s =>
    match parseFloat s with
    | none => fun _ => true
    | some c => fun r => (if guarded then (get r).isSome else true) && pdCmp op (get r) c

/-- The six columns the filter language can reference. -/
def filterCols : List String :=
  ["PAYMENT_METHOD", "LOCATION_COUNTRY", "PRODUCT_CATEGORY", "STATUS",
   "AMOUNT_USD", "CUSTOMER_RATING"]

/-- The nested-filter normal form of the in-memory translator, clause steps
in source order (innermost first). -/
def nestedFilters (df : DataFrame) (qp : QueryParams) : List Record :=
  ((((((((((df.rows.filter
    (memStepPred (fun r => r.PAYMENT_METHOD) qp.payment_method)).filter
    (memStepPred (fun r => r.LOCATION_COUNTRY) qp.country)).filter
    (memStepPred (fun r => r.PRODUCT_CATEGORY) qp.product_category)).filter
    (memStepPred (fun r => r.STATUS) qp.status)).filter
    (numStepPred (fun r => r.AMOUNT_USD) .gtOp false qp.amount_gt)).filter
    (numStepPred (fun r => r.AMOUNT_USD) .ltOp false qp.amount_lt)).filter
    (numStepPred (fun r => r.AMOUNT_USD) .eqOp false qp.amount_eq)).filter
    (numStepPred (fun r => r.CUSTOMER_RATING) .gtOp true qp.rating_gt)).filter
    (numStepPred (fun r => r.CUSTOMER_RATING) .ltOp true qp.rating_lt)).filter
    (numStepPred (fun r => r.CUSTOMER_RATING) .eqOp true qp.rating_eq))

/-- The semantic predicate list one membership parameter contributes. -/
def memSemList (get : Record → Option String) (param : Option (List String)) :
    List (Record → Bool) :=
  match param with
  | none => []
  | some vals => [fun r => optIn (get r) vals]

/-- The semantic predicate list one numeric parameter contributes. -/
def numSemList (get : Record → Option ℚ) (op : CmpOp) (guarded : Bool)
    (param : Option String) : List (Record → Bool) :=
  match param with
  | none => []
  | some s =>
    match parseFloat s with
    | none => []
    | some c => [fun r => sqlCmp op (get r) c && (if guarded then (get r).isSome else true)]

/-- Hypothesis shape for one membership parameter: when supplied, its value
list is nonempty (Django always delivers at least one value for a present
key) and its values are free of quote and escape characters, so the
interpolated literals keep their lexical structure. -/
def cleanParam (param : Option (List String)) : Prop :=
  ∀ vals, param = some vals → vals ≠ [] ∧ ∀ v ∈ vals, sqlSafeVal v = true

/-- Hypothesis shape for one numeric parameter: when supplied, its value
lies in the finite plain-decimal fragment `parseFloat` models. Outside
that fragment the model is silent: `float` also accepts non-finite
spellings, on which the two real translators genuinely diverge (the
in-memory path applies the comparison while the rendered SQL text is
invalid and the table path degrades to an empty frame). -/
def numParamOk (param : Option String) : Prop :=
  ∀ s, param = some s → (parseFloat s).isSome = true

def stdCols : List String :=
  ["PAYMENT_METHOD", "LOCATION_COUNTRY", "PRODUCT_CATEGORY", "STATUS", "AMOUNT_USD",
   "CUSTOMER_RATING", "TIMESTAMP", "TRANSACTION_TYPE", "USER_ID", "PRODUCT_ID", "QUANTITY"]

/-- A fully populated sample transaction used in concrete instantiations. -/
def sampleRec : Record :=
  { PAYMENT_METHOD := some "paypal", LOCATION_COUNTRY := some "USA",
    PRODUCT_CATEGORY := some "books", STATUS := some "completed", AMOUNT_USD := some 50,
    CUSTOMER_RATING := some 4, TIMESTAMP := some 1000, TRANSACTION_TYPE := some "purchase",
    USER_ID := some "u1", PRODUCT_ID := some "p1", QUANTITY := some 2 }

/-- A record whose STATUS value contains SQL metacharacters. -/
def injRec : Record :=
  { sampleRec with STATUS := some "a\x27, \x27b" }

def injDF : DataFrame := { cols := stdCols, rows := [injRec] }

def injQP : QueryParams := { status := some ["a\x27, \x27b"] }

def witDF : DataFrame := { cols := stdCols, rows := [sampleRec, injRec] }

def witQP : QueryParams := { status := some ["completed"], amount_gt := some "30" }

/-- A record whose STATUS value ends in the escape character. -/
def bsRec : Record := { sampleRec with STATUS := some "x\\" }

def bsDF : DataFrame := { cols := stdCols, rows := [bsRec] }

def bsQP : QueryParams := { status := some ["x\\"] }

/- ### C7: an unparseable numeric value drops exactly that clause -/
/-- The ten-step filter chain of `apply_filters` without the
`if not query_params` early return. -/
def chainFilters (df : DataFrame) (qp : QueryParams) : Except String (List Record) := do
  let r1 ← memMembership df.cols "PAYMENT_METHOD" (fun r => r.PAYMENT_METHOD)
    qp.payment_method df.rows
  let r2 ← memMembership df.cols "LOCATION_COUNTRY" (fun r => r.LOCATION_COUNTRY)
    qp.country r1
  let r3 ← memMembership df.cols "PRODUCT_CATEGORY" (fun r => r.PRODUCT_CATEGORY)
    qp.product_category r2
  let r4 ← memMembership df.cols "STATUS" (fun r => r.STATUS) qp.status r3
  let r5 ← memNumeric df.cols "AMOUNT_USD" (fun r => r.AMOUNT_USD) .gtOp false
    qp.amount_gt r4
  let r6 ← memNumeric df.cols "AMOUNT_USD" (fun r => r.AMOUNT_USD) .ltOp false
    qp.amount_lt r5
  let r7 ← memNumeric df.cols "AMOUNT_USD" (fun r => r.AMOUNT_USD) .eqOp false
    qp.amount_eq r6
  let r8 ← memNumeric df.cols "CUSTOMER_RATING" (fun r => r.CUSTOMER_RATING) .gtOp true
    qp.rating_gt r7
  let r9 ← memNumeric df.cols "CUSTOMER_RATING" (fun r => r.CUSTOMER_RATING) .ltOp true
    qp.rating_lt r8
  let r10 ← memNumeric df.cols "CUSTOMER_RATING" (fun r => r.CUSTOMER_RATING) .eqOp true
    qp.rating_eq r9
  return r10

/-- The six numeric filter keys, as positions one can update in a
parameter set. -/
inductive NumSlot where
  | ag
  | al
  | ae
  | rg
  | rl
  | re
  deriving DecidableEq

/-- Overwrite one numeric filter key with a raw value (or remove it). -/
def setNum (slot : NumSlot) (qp : QueryParams) (v : Option String) : QueryParams :=
  match slot with
  | .ag => { qp with amount_gt := v }
  | .al => { qp with amount_lt := v }
  | .ae => { qp with amount_eq := v }
  | .rg => { qp with rating_gt := v }
  | .rl => { qp with rating_lt := v }
  | .re => { qp with rating_eq := v }

/- ### C8: a null value never satisfies a comparison clause -/
/-- The sample record with its CUSTOMER_RATING missing. -/
def nullRatingRec : Record := { sampleRec with CUSTOMER_RATING := none }

def nullRatingDF : DataFrame := { cols := stdCols, rows := [nullRatingRec, sampleRec] }

def ratingGt3QP : QueryParams := { rating_gt := some "3" }

/-- A frame that lacks the PAYMENT_METHOD column entirely. -/
def noPayColDF : DataFrame :=
  { cols := ["STATUS", "AMOUNT_USD"], rows := [sampleRec] }

/- ### C3: the windowed spend metric -/
/-- The single predicate characterising the records the windowed-spend
metric keeps: a purchase or payment whose timestamp is present and at least
`now - minutes` minutes ago. -/
def spendKeepPred (now : ℚ) (minutes : ℤ) (r : Record) : Bool :=
  (r.TRANSACTION_TYPE == some "purchase" || r.TRANSACTION_TYPE == some "payment") &&
    (match r.TIMESTAMP with
     | some t => decide (now - (minutes : ℚ) * 60 ≤ t)
     | none => false)

/-- The records of the worked spec example: one purchase of 50 ten minutes
before `now` and one payment of 20 one minute before `now`. -/
def spendExampleRecs : List Record :=
  [{ sampleRec with TIMESTAMP := some 5400, AMOUNT_USD := some 50, TRANSACTION_TYPE := some "purchase" },
   { sampleRec with TIMESTAMP := some 5940, AMOUNT_USD := some 20, TRANSACTION_TYPE := some "payment" }]

/- ### C4: ordering of the user-spend result -/
/-- The ordering the spec requires of the user-spend list: strictly larger
grand total first, ties in ascending user id. -/
def userOrdRel (a b : UserResult) : Prop :=
  b.total_spending < a.total_spending ∨
    (a.total_spending = b.total_spending ∧ a.user_id < b.user_id)

/- ### C5: the K handling of the top-products metric -/
/-- The number of distinct ranked products: the group count of the
purchase rows. -/
def numRankedProducts (records : List Record) : ℕ :=
  (productAggs (records.filter (fun r => r.TRANSACTION_TYPE == some "purchase"))).length

def topSampleRecs : List Record :=
  [sampleRec, { sampleRec with PRODUCT_ID := some "p2", QUANTITY := some 9 }]

/- ### Theorems -/

theorem memMembership_eq {cols : List String} {col : String} {get : Record → Option String}
    (param : Option (List String)) (rows : List Record) (h : col ∈ cols) :
    memMembership cols col get param rows = .ok (rows.filter (memStepPred get param)) := by
  cases param with
  | none => simp [memMembership, memStepPred, List.filter_true]
  | some vals => simp [memMembership, memStepPred, whereCol, h]

theorem memNumeric_eq {cols : List String} {col : String} {get : Record → Option ℚ}
    (op : CmpOp) (guarded : Bool) (param : Option String) (rows : List Record)
    (h : col ∈ cols) :
    memNumeric cols col get op guarded param rows =
      .ok (rows.filter (numStepPred get op guarded param)) := by
  cases param with
  | none => simp [memNumeric, numStepPred, List.filter_true]
  | some s =>
    cases hp : parseFloat s with
    | none => simp [memNumeric, numStepPred, hp, List.filter_true]
    | some c => simp [memNumeric, numStepPred, hp, whereCol, h]

theorem exceptBindOk {ε α β : Type} (a : α) (f : α → Except ε β) :
    (Except.ok a >>= f : Except ε β) = f a := rfl

theorem apply_filters_eq_nested (df : DataFrame) (qp : QueryParams)
    (hc : ∀ c ∈ filterCols, c ∈ df.cols) (hne : qp.isEmptyQP = false) :
    apply_filters df qp = .ok (nestedFilters df qp) := by
  have h1 : "PAYMENT_METHOD" ∈ df.cols := hc _ (by simp [filterCols])
  have h2 : "LOCATION_COUNTRY" ∈ df.cols := hc _ (by simp [filterCols])
  have h3 : "PRODUCT_CATEGORY" ∈ df.cols := hc _ (by simp [filterCols])
  have h4 : "STATUS" ∈ df.cols := hc _ (by simp [filterCols])
  have h5 : "AMOUNT_USD" ∈ df.cols := hc _ (by simp [filterCols])
  have h6 : "CUSTOMER_RATING" ∈ df.cols := hc _ (by simp [filterCols])
  rw [apply_filters, if_neg (by simp [hne])]
  rw [show (do
    let r1 ← memMembership df.cols "PAYMENT_METHOD" (fun r => r.PAYMENT_METHOD)
      qp.payment_method df.rows
    let r2 ← memMembership df.cols "LOCATION_COUNTRY" (fun r => r.LOCATION_COUNTRY)
      qp.country r1
    let r3 ← memMembership df.cols "PRODUCT_CATEGORY" (fun r => r.PRODUCT_CATEGORY)
      qp.product_category r2
    let r4 ← memMembership df.cols "STATUS" (fun r => r.STATUS) qp.status r3
    let r5 ← memNumeric df.cols "AMOUNT_USD" (fun r => r.AMOUNT_USD) .gtOp false
      qp.amount_gt r4
    let r6 ← memNumeric df.cols "AMOUNT_USD" (fun r => r.AMOUNT_USD) .ltOp false
      qp.amount_lt r5
    let r7 ← memNumeric df.cols "AMOUNT_USD" (fun r => r.AMOUNT_USD) .eqOp false
      qp.amount_eq r6
    let r8 ← memNumeric df.cols "CUSTOMER_RATING" (fun r => r.CUSTOMER_RATING) .gtOp true
      qp.rating_gt r7
    let r9 ← memNumeric df.cols "CUSTOMER_RATING" (fun r => r.CUSTOMER_RATING) .ltOp true
      qp.rating_lt r8
    let r10 ← memNumeric df.cols "CUSTOMER_RATING" (fun r => r.CUSTOMER_RATING) .eqOp true
      qp.rating_eq r9
    return r10 : Except String (List Record)) =
    .ok (nestedFilters df qp) from ?_]
  rw [memMembership_eq _ _ h1, exceptBindOk, memMembership_eq _ _ h2, exceptBindOk,
    memMembership_eq _ _ h3, exceptBindOk, memMembership_eq _ _ h4, exceptBindOk,
    memNumeric_eq _ _ _ _ h5, exceptBindOk, memNumeric_eq _ _ _ _ h5, exceptBindOk,
    memNumeric_eq _ _ _ _ h5, exceptBindOk, memNumeric_eq _ _ _ _ h6, exceptBindOk,
    memNumeric_eq _ _ _ _ h6, exceptBindOk, memNumeric_eq _ _ _ _ h6, exceptBindOk]
  rfl

/- ### Round trip of the rendered membership list for clean values -/
theorem readLit_append (content rest : List Char)
    (h : content.contains squote = false) (hb : content.contains bslash = false) :
    readLit (content ++ squote :: rest) = some (content, rest) := by
  induction content with
  | nil => simp [readLit, readLitAux]
  | cons c cs ih =>
    rw [List.contains_cons, Bool.or_eq_false_iff] at h hb
    have hc : ¬(c = squote) := by
      intro he
      subst he
      simp at h
    have hcb : ¬(c = bslash) := by
      intro he
      subst he
      simp at hb
    have ih2 := ih h.2 hb.2
    rw [readLit] at ih2
    simp [readLit, readLitAux, hc, hcb, ih2]

theorem quoteVal_data (v : String) : (quoteVal v).data = squote :: (v.data ++ [squote]) := by
  simp [quoteVal, squoteStr, String.data_append]
  rfl

theorem renderInList_cons_data (v : String) (w : String) (vs : List String) :
    (renderInList (v :: w :: vs)).data =
      squote :: (v.data ++ squote :: (',' :: ' ' :: (renderInList (w :: vs)).data)) := by
  show (quoteVal v ++ ", " ++ renderInList (w :: vs)).data = _
  simp [String.data_append, quoteVal_data]

theorem parseInChars_render (vs : List String) :
    ∀ fuel : ℕ, vs ≠ [] → (∀ v ∈ vs, sqlSafeVal v = true) → vs.length ≤ fuel →
      parseInChars fuel (renderInList vs).data = some vs := by
  induction vs with
  | nil => intro fuel h; exact absurd rfl h
  | cons v vs ih =>
    intro fuel _ hq hlen
    have hv2 : v.data.contains squote = false ∧ v.data.contains bslash = false := by
      have := hq v (by simp)
      simpa [sqlSafeVal] using this
    have hv := hv2.1
    have hvb := hv2.2
    obtain ⟨fuel, rfl⟩ : ∃ f, fuel = f + 1 := by
      cases fuel with
      | zero => simp at hlen
      | succ f => exact ⟨f, rfl⟩
    cases vs with
    | nil =>
      have hdata : (renderInList [v]).data = squote :: (v.data ++ squote :: []) := by
        show (quoteVal v).data = _
        simpa using quoteVal_data v
      rw [hdata]
      simp only [parseInChars, if_pos rfl, readLit_append v.data [] hv hvb]
      rfl
    | cons w ws =>
      rw [renderInList_cons_data]
      simp only [parseInChars, if_pos rfl,
        readLit_append v.data (',' :: ' ' :: (renderInList (w :: ws)).data) hv hvb]
      have hrec : parseInChars fuel (renderInList (w :: ws)).data = some (w :: ws) :=
        ih fuel (by simp) (fun x hx => hq x (by simp [hx])) (by
          have := hlen
          simpa [List.length_cons] using Nat.le_of_succ_le_succ this)
      simp [hrec]

theorem renderInList_length (vs : List String) :
    vs.length ≤ (renderInList vs).data.length + 1 := by
  induction vs with
  | nil => simp
  | cons v vs ih =>
    cases vs with
    | nil => simp
    | cons w ws =>
      rw [renderInList_cons_data]
      simp only [List.length_cons, List.length_append] at *
      omega

/-- Rendering a nonempty value list free of quote and escape characters
and lexing it back returns exactly the original values. -/
theorem parseInList_render (vs : List String) (hne : vs ≠ [])
    (hq : ∀ v ∈ vs, sqlSafeVal v = true) :
    parseInList (renderInList vs) = some vs :=
  parseInChars_render vs _ hne hq
    (le_trans (renderInList_length vs) (Nat.le_refl _))

theorem optionsAll_append (l1 l2 : List (Option α)) :
    optionsAll (l1 ++ l2) =
      (optionsAll l1).bind (fun a => (optionsAll l2).map (fun b => a ++ b)) := by
  induction l1 with
  | nil =>
    cases h : optionsAll l2 <;> simp [optionsAll, h]
  | cons o l1 ih =>
    cases o with
    | none => simp [optionsAll]
    | some a =>
      cases h1 : optionsAll l1 with
      | none =>
        rw [List.cons_append]
        simp [optionsAll, h1, ih]
      | some b =>
        rw [List.cons_append]
        cases h2 : optionsAll l2 with
        | none => simp [optionsAll, h1, h2, ih]
        | some c => simp [optionsAll, h1, h2, ih]

theorem semsOf_mCond (cols : List String) (col : String) (get : Record → Option String)
    (param : Option (List String)) (h : col ∈ cols) (hget : strField col = get)
    (hq : ∀ vals, param = some vals → vals ≠ [] ∧ ∀ v ∈ vals, sqlSafeVal v = true) :
    optionsAll ((mCond col param).map (condSem cols)) = some (memSemList get param) := by
  cases param with
  | none => rfl
  | some vals =>
    obtain ⟨hne, hqf⟩ := hq vals rfl
    simp [mCond, condSem, h, parseInList_render vals hne hqf, optionsAll, memSemList, hget]

theorem semsOf_nCond (cols : List String) (col : String) (get : Record → Option ℚ)
    (op : CmpOp) (guarded : Bool) (param : Option String) (h : col ∈ cols)
    (hget : numField col = get) :
    optionsAll ((nCond col op guarded param).map (condSem cols)) =
      some (numSemList get op guarded param) := by
  cases param with
  | none => rfl
  | some s =>
    cases hp : parseFloat s with
    | none => simp [nCond, hp, optionsAll, numSemList]
    | some c => simp [nCond, hp, condSem, h, optionsAll, numSemList, hget]

theorem filter_allP_append (L1 L2 : List (Record → Bool)) (X : List Record) :
    X.filter (fun r => (L1 ++ L2).all (fun p => p r)) =
      (X.filter (fun r => L1.all (fun p => p r))).filter (fun r => L2.all (fun p => p r)) := by
  rw [List.filter_filter]
  exact (List.filter_congr fun r _ => by rw [List.all_append, Bool.and_comm]).symm

theorem filter_memSemList (get : Record → Option String) (param : Option (List String))
    (X : List Record) :
    X.filter (fun r => (memSemList get param).all (fun p => p r)) =
      X.filter (memStepPred get param) := by
  cases param with
  | none => rfl
  | some vals =>
    exact List.filter_congr fun r _ => by simp [memSemList, memStepPred]

theorem filter_numSemList (get : Record → Option ℚ) (op : CmpOp) (guarded : Bool)
    (param : Option String) (X : List Record) :
    X.filter (fun r => (numSemList get op guarded param).all (fun p => p r)) =
      X.filter (numStepPred get op guarded param) := by
  cases param with
  | none => rfl
  | some s =>
    cases hp : parseFloat s with
    | none =>
      refine List.filter_congr fun r _ => ?_
      simp [numSemList, numStepPred, hp]
    | some c =>
      refine List.filter_congr fun r _ => ?_
      cases guarded <;> cases hv : get r <;>
        simp [numSemList, numStepPred, hp, hv, sqlCmp, pdCmp, Bool.and_comm]

theorem db_survivors_eq_nested (df : DataFrame) (qp : QueryParams)
    (hc : ∀ c ∈ filterCols, c ∈ df.cols)
    (hq1 : cleanParam qp.payment_method) (hq2 : cleanParam qp.country)
    (hq3 : cleanParam qp.product_category) (hq4 : cleanParam qp.status) :
    db_survivors df qp = nestedFilters df qp := by
  have h1 : "PAYMENT_METHOD" ∈ df.cols := hc _ (by simp [filterCols])
  have h2 : "LOCATION_COUNTRY" ∈ df.cols := hc _ (by simp [filterCols])
  have h3 : "PRODUCT_CATEGORY" ∈ df.cols := hc _ (by simp [filterCols])
  have h4 : "STATUS" ∈ df.cols := hc _ (by simp [filterCols])
  have h5 : "AMOUNT_USD" ∈ df.cols := hc _ (by simp [filterCols])
  have h6 : "CUSTOMER_RATING" ∈ df.cols := hc _ (by simp [filterCols])
  have S1 := semsOf_mCond df.cols "PAYMENT_METHOD"
    (fun r => r.PAYMENT_METHOD) qp.payment_method h1 rfl hq1
  have S2 := semsOf_mCond df.cols "LOCATION_COUNTRY"
    (fun r => r.LOCATION_COUNTRY) qp.country h2 rfl hq2
  have S3 := semsOf_mCond df.cols "PRODUCT_CATEGORY"
    (fun r => r.PRODUCT_CATEGORY) qp.product_category h3 rfl hq3
  have S4 := semsOf_mCond df.cols "STATUS"
    (fun r => r.STATUS) qp.status h4 rfl hq4
  have S5 := semsOf_nCond df.cols "AMOUNT_USD"
    (fun r => r.AMOUNT_USD) .gtOp false qp.amount_gt h5 rfl
  have S6 := semsOf_nCond df.cols "AMOUNT_USD"
    (fun r => r.AMOUNT_USD) .ltOp false qp.amount_lt h5 rfl
  have S7 := semsOf_nCond df.cols "AMOUNT_USD"
    (fun r => r.AMOUNT_USD) .eqOp false qp.amount_eq h5 rfl
  have S8 := semsOf_nCond df.cols "CUSTOMER_RATING"
    (fun r => r.CUSTOMER_RATING) .gtOp true qp.rating_gt h6 rfl
  have S9 := semsOf_nCond df.cols "CUSTOMER_RATING"
    (fun r => r.CUSTOMER_RATING) .ltOp true qp.rating_lt h6 rfl
  have S10 := semsOf_nCond df.cols "CUSTOMER_RATING"
    (fun r => r.CUSTOMER_RATING) .eqOp true qp.rating_eq h6 rfl
  have hAll : optionsAll ((build_conds qp).map (condSem df.cols)) =
      some (memSemList (fun r => r.PAYMENT_METHOD) qp.payment_method ++
        (memSemList (fun r => r.LOCATION_COUNTRY) qp.country ++
        (memSemList (fun r => r.PRODUCT_CATEGORY) qp.product_category ++
        (memSemList (fun r => r.STATUS) qp.status ++
        (numSemList (fun r => r.AMOUNT_USD) .gtOp false qp.amount_gt ++
        (numSemList (fun r => r.AMOUNT_USD) .ltOp false qp.amount_lt ++
        (numSemList (fun r => r.AMOUNT_USD) .eqOp false qp.amount_eq ++
        (numSemList (fun r => r.CUSTOMER_RATING) .gtOp true qp.rating_gt ++
        (numSemList (fun r => r.CUSTOMER_RATING) .ltOp true qp.rating_lt ++
        numSemList (fun r => r.CUSTOMER_RATING) .eqOp true qp.rating_eq))))))))) := by
    rw [build_conds]
    simp only [List.map_append, optionsAll_append, S1, S2, S3, S4, S5, S6, S7, S8, S9, S10,
      Option.map_some', Option.some_bind]
    simp only [List.append_assoc]
  simp only [db_survivors, hAll]
  simp only [filter_allP_append]
  simp only [filter_memSemList, filter_numSemList]
  rfl

theorem isEmptyQP_fields {qp : QueryParams} (h : qp.isEmptyQP = true) :
    qp.payment_method = none ∧ qp.country = none ∧ qp.product_category = none ∧
    qp.status = none ∧ qp.amount_gt = none ∧ qp.amount_lt = none ∧
    qp.amount_eq = none ∧ qp.rating_gt = none ∧ qp.rating_lt = none ∧
    qp.rating_eq = none := by
  rw [QueryParams.isEmptyQP] at h
  simp only [Bool.and_eq_true, Option.isNone_iff_eq_none] at h
  tauto

theorem build_conds_empty {qp : QueryParams} (h : qp.isEmptyQP = true) :
    build_conds qp = [] := by
  obtain ⟨e1, e2, e3, e4, e5, e6, e7, e8, e9, e10⟩ := isEmptyQP_fields h
  simp [build_conds, mCond, nCond, e1, e2, e3, e4, e5, e6, e7, e8, e9, e10]

theorem db_survivors_empty (df : DataFrame) {qp : QueryParams} (h : qp.isEmptyQP = true) :
    db_survivors df qp = df.rows := by
  simp [db_survivors, build_conds_empty h, optionsAll, List.filter_true]

/-- C2. The claim as stated fails on the code: because `build_sql_query`
interpolates membership values into the query text, a value containing a
quote or escape character changes the lexical structure of the generated
IN list. For the value `a', 'b` the in-memory translator keeps the
matching record while the relational path runs `STATUS IN ('a', 'b')` and
keeps nothing; for a value ending in a backslash the rendered literal
swallows its closing quote, the query fails, and the table path degrades
to an empty frame while the in-memory path again keeps the record: the two
translators disagree on semantically equal data. -/
theorem c2_backend_equivalence_counterexample :
    apply_filters injDF injQP = Except.ok [injRec] ∧ db_survivors injDF injQP = [] ∧
    apply_filters injDF injQP ≠ Except.ok (db_survivors injDF injQP) ∧
    apply_filters bsDF bsQP = Except.ok [bsRec] ∧ db_survivors bsDF bsQP = [] := by
  refine ⟨rfl, by decide, ?_, rfl, by decide⟩
  intro h
  have hA : apply_filters injDF injQP = Except.ok [injRec] := rfl
  rw [hA, show db_survivors injDF injQP = [] from by decide] at h
  injection h with h2
  exact List.cons_ne_nil _ _ h2

/-- C2 (amended). Backend equivalence as the spec states it holds whenever
the interpolation defect cannot fire and the numeric values are within the
modelled fragment of `float`: for every frame carrying the six filterable
columns, every parameter set whose membership value lists are nonempty and
free of quote and escape characters, and whose numeric values — when
present — are plain finite decimal numerals, the in-memory translator
succeeds and selects exactly the records the generated relational query
selects, including agreement on null-valued fields, where the IS NOT NULL
guard of the rating clauses mirrors the notna guard of the in-memory rule.
The numeric restriction is forced because `float` also accepts non-finite
spellings such as `inf`, on which the real translators diverge (the
comparison is applied in memory while the rendered SQL text is invalid);
a rational-valued model cannot state, only exclude, those inputs. -/
theorem c2_backend_equivalence (df : DataFrame) (qp : QueryParams)
    (hc : ∀ c ∈ filterCols, c ∈ df.cols)
    (hq1 : cleanParam qp.payment_method) (hq2 : cleanParam qp.country)
    (hq3 : cleanParam qp.product_category) (hq4 : cleanParam qp.status)
    (_hn1 : numParamOk qp.amount_gt) (_hn2 : numParamOk qp.amount_lt)
    (_hn3 : numParamOk qp.amount_eq) (_hn4 : numParamOk qp.rating_gt)
    (_hn5 : numParamOk qp.rating_lt) (_hn6 : numParamOk qp.rating_eq) :
    apply_filters df qp = Except.ok (db_survivors df qp) := by
  cases hE : qp.isEmptyQP with
  | true =>
    rw [apply_filters, if_pos (by simp [hE]), db_survivors_empty df hE]
  | false =>
    rw [apply_filters_eq_nested df qp hc hE, db_survivors_eq_nested df qp hc hq1 hq2 hq3 hq4]

set_option maxRecDepth 16384 in
/-- Concrete instantiation of `c2_backend_equivalence`: both translators
select exactly the sample record. -/
theorem c2_backend_equivalence_witness :
    apply_filters witDF witQP = Except.ok (db_survivors witDF witQP) ∧
      db_survivors witDF witQP = [sampleRec] := by
  constructor
  · exact c2_backend_equivalence witDF witQP (by decide)
      (fun vals h => by cases h) (fun vals h => by cases h) (fun vals h => by cases h)
      (fun vals h => by
        cases h
        exact ⟨by simp, by decide⟩)
      (fun st h => by cases h; rfl) (fun st h => by cases h) (fun st h => by cases h)
      (fun st h => by cases h) (fun st h => by cases h) (fun st h => by cases h)
  · with_unfolding_all decide

/- ### C1: the generated query text interpolates the filter values -/
/-- C1. The query translator does not bind its values: the caller-supplied
membership value is concatenated verbatim into the query text (here a
classic quote-breaking payload), and the query text is a function of the
filter values — two requests differing only in a value produce different
SQL strings. This contradicts the bound-parameter requirement of the spec;
the spec itself flags the concatenation as the defect to correct. -/
theorem c1_values_interpolated_into_query_text :
    build_sql_query "transactions" { payment_method := some ["x\x27 OR \x271\x27=\x271"] } =
      "SELECT * FROM transactions WHERE PAYMENT_METHOD IN (\x27x\x27 OR \x271\x27=\x271\x27)" ∧
    build_sql_query "transactions" { payment_method := some ["alpha"] } ≠
      build_sql_query "transactions" { payment_method := some ["beta"] } := by
  refine ⟨rfl, ?_⟩
  decide

theorem memMembership_noneP {cols : List String} {col : String} {get : Record → Option String}
    {rows : List Record} : memMembership cols col get none rows = .ok rows := rfl

theorem memNumeric_noneP {cols : List String} {col : String} {get : Record → Option ℚ}
    {op : CmpOp} {g : Bool} {rows : List Record} :
    memNumeric cols col get op g none rows = .ok rows := rfl

theorem memNumeric_skip {s : String} (h : parseFloat s = none) {cols : List String}
    {col : String} {get : Record → Option ℚ} {op : CmpOp} {g : Bool} {rows : List Record} :
    memNumeric cols col get op g (some s) rows = .ok rows := by
  simp [memNumeric, h]

theorem chainFilters_empty (df : DataFrame) {qp : QueryParams} (h : qp.isEmptyQP = true) :
    chainFilters df qp = .ok df.rows := by
  obtain ⟨e1, e2, e3, e4, e5, e6, e7, e8, e9, e10⟩ := isEmptyQP_fields h
  rw [chainFilters]
  simp only [e1, e2, e3, e4, e5, e6, e7, e8, e9, e10, memMembership_noneP,
    memNumeric_noneP, exceptBindOk]
  rfl

theorem apply_filters_eq_chain (df : DataFrame) (qp : QueryParams) :
    apply_filters df qp = chainFilters df qp := by
  cases hE : qp.isEmptyQP with
  | true =>
    rw [apply_filters, if_pos (by simp [hE]), chainFilters_empty df hE]
  | false =>
    rw [apply_filters, if_neg (by simp [hE])]
    rfl

theorem build_sql_query_eq_conds (table : String) (qp : QueryParams) :
    build_sql_query table qp =
      (match build_conds qp with
       | [] => "SELECT * FROM " ++ table
       | conds => "SELECT * FROM " ++ table ++ " WHERE " ++ joinAnd (conds.map renderCond)) := by
  cases hE : qp.isEmptyQP with
  | true => rw [build_sql_query, if_pos (by simp [hE]), build_conds_empty hE]
  | false => rw [build_sql_query, if_neg (by simp [hE])]

theorem build_conds_setNum (slot : NumSlot) (qp : QueryParams) {v : String}
    (h : parseFloat v = none) :
    build_conds (setNum slot qp (some v)) = build_conds (setNum slot qp none) := by
  cases slot <;> simp [setNum, build_conds, nCond, h]

/-- C7. A numeric filter value that fails `float` parsing drops exactly that
clause: with any other parameters held fixed, the in-memory translator
computes the same result as with the clause absent, and the generated
relational query text is the same as with the clause absent; in particular
the request itself never fails because of the bad value. -/
theorem c7_unparseable_numeric_value_drops_only_that_clause
    (df : DataFrame) (table : String) (qp : QueryParams) (slot : NumSlot) (v : String)
    (h : parseFloat v = none) :
    apply_filters df (setNum slot qp (some v)) = apply_filters df (setNum slot qp none) ∧
    build_sql_query table (setNum slot qp (some v)) =
      build_sql_query table (setNum slot qp none) := by
  constructor
  · rw [apply_filters_eq_chain, apply_filters_eq_chain]
    cases slot <;>
      simp only [setNum, chainFilters, memNumeric_skip h, memNumeric_noneP, exceptBindOk]
  · rw [build_sql_query_eq_conds, build_sql_query_eq_conds, build_conds_setNum slot qp h]

set_option maxRecDepth 16384 in
/-- Concrete instantiation of the clause-drop theorem: `amount_gt=abc` gives
the same records and the same query text as no `amount_gt` at all. -/
theorem c7_unparseable_numeric_value_witness :
    parseFloat "abc" = none ∧
    apply_filters witDF (setNum .ag { status := some ["completed"] } (some "abc")) =
      apply_filters witDF (setNum .ag { status := some ["completed"] } none) ∧
    apply_filters witDF (setNum .ag { status := some ["completed"] } none) =
      Except.ok [sampleRec] := by
  refine ⟨rfl, (c7_unparseable_numeric_value_drops_only_that_clause
    witDF "transactions" { status := some ["completed"] } .ag "abc" rfl).1, ?_⟩
  rfl

set_option maxRecDepth 16384 in
/-- C8. Under pandas semantics and under the generated SQL, a missing value
satisfies no `gt`, `lt` or `eq` comparison, whatever the constant; and on a
concrete frame the record with `CUSTOMER_RATING` missing is excluded by
`rating_gt=3` by both translators while the rated record survives. -/
theorem c8_null_value_never_satisfies_comparison :
    (∀ (op : CmpOp) (c : ℚ), pdCmp op none c = false) ∧
    (∀ (op : CmpOp) (c : ℚ), sqlCmp op none c = false) ∧
    apply_filters nullRatingDF ratingGt3QP = Except.ok [sampleRec] ∧
    db_survivors nullRatingDF ratingGt3QP = [sampleRec] := by
  refine ⟨fun op c => rfl, fun op c => rfl, ?_, ?_⟩
  · with_unfolding_all rfl
  · with_unfolding_all decide

/- ### C10: a membership filter on a missing column fails the request -/
theorem exceptBindErr {ε α β : Type} (e : ε) (f : α → Except ε β) :
    (Except.error e >>= f : Except ε β) = .error e := rfl

theorem apply_filters_error_of_missing_membership_col (df : DataFrame) (qp : QueryParams)
    (hcase :
      (qp.payment_method.isSome ∧ "PAYMENT_METHOD" ∉ df.cols) ∨
      (qp.country.isSome ∧ "LOCATION_COUNTRY" ∉ df.cols) ∨
      (qp.product_category.isSome ∧ "PRODUCT_CATEGORY" ∉ df.cols) ∨
      (qp.status.isSome ∧ "STATUS" ∉ df.cols)) :
    ∃ e, apply_filters df qp = .error e := by
  rw [apply_filters_eq_chain]
  rcases hcase with ⟨hp, hc⟩ | ⟨hp, hc⟩ | ⟨hp, hc⟩ | ⟨hp, hc⟩
  · obtain ⟨vals, hv⟩ := Option.isSome_iff_exists.mp hp
    exact ⟨keyError "PAYMENT_METHOD", by
      rw [chainFilters, hv]
      simp [memMembership, whereCol, hc, exceptBindErr]⟩
  · cases h1 : memMembership df.cols "PAYMENT_METHOD" (fun r => r.PAYMENT_METHOD)
      qp.payment_method df.rows with
    | error e => exact ⟨e, by rw [chainFilters, h1]; rfl⟩
    | ok r1 =>
      obtain ⟨vals, hv⟩ := Option.isSome_iff_exists.mp hp
      exact ⟨keyError "LOCATION_COUNTRY", by
        rw [chainFilters, h1, exceptBindOk, hv]
        simp [memMembership, whereCol, hc, exceptBindErr]⟩
  · cases h1 : memMembership df.cols "PAYMENT_METHOD" (fun r => r.PAYMENT_METHOD)
      qp.payment_method df.rows with
    | error e => exact ⟨e, by rw [chainFilters, h1]; rfl⟩
    | ok r1 =>
      cases h2 : memMembership df.cols "LOCATION_COUNTRY" (fun r => r.LOCATION_COUNTRY)
        qp.country r1 with
      | error e => exact ⟨e, by rw [chainFilters, h1, exceptBindOk, h2]; rfl⟩
      | ok r2 =>
        obtain ⟨vals, hv⟩ := Option.isSome_iff_exists.mp hp
        exact ⟨keyError "PRODUCT_CATEGORY", by
          rw [chainFilters, h1, exceptBindOk, h2, exceptBindOk, hv]
          simp [memMembership, whereCol, hc, exceptBindErr]⟩
  · cases h1 : memMembership df.cols "PAYMENT_METHOD" (fun r => r.PAYMENT_METHOD)
      qp.payment_method df.rows with
    | error e => exact ⟨e, by rw [chainFilters, h1]; rfl⟩
    | ok r1 =>
      cases h2 : memMembership df.cols "LOCATION_COUNTRY" (fun r => r.LOCATION_COUNTRY)
        qp.country r1 with
      | error e => exact ⟨e, by rw [chainFilters, h1, exceptBindOk, h2]; rfl⟩
      | ok r2 =>
        cases h3 : memMembership df.cols "PRODUCT_CATEGORY" (fun r => r.PRODUCT_CATEGORY)
          qp.product_category r2 with
        | error e => exact ⟨e, by rw [chainFilters, h1, exceptBindOk, h2, exceptBindOk, h3]; rfl⟩
        | ok r3 =>
          obtain ⟨vals, hv⟩ := Option.isSome_iff_exists.mp hp
          exact ⟨keyError "STATUS", by
            rw [chainFilters, h1, exceptBindOk, h2, exceptBindOk, h3, exceptBindOk, hv]
            simp [memMembership, whereCol, hc, exceptBindErr]⟩

/-- C10. On a nonempty merged batch that lacks the column a supplied
membership filter targets, the in-memory query path raises (pandas
`KeyError` on the column lookup) and `BaseParquetView.get` answers with the
top-level internal-error response — the clause is not dropped and no
records are returned. The silent-drop tolerance covers only numeric values
that fail `float` parsing. -/
theorem c10_missing_membership_column_fails_request (df : DataFrame) (qp : QueryParams)
    (page : ℤ) (psParam : Option ℤ) (hne : df.rows ≠ [])
    (hcase :
      (qp.payment_method.isSome ∧ "PAYMENT_METHOD" ∉ df.cols) ∨
      (qp.country.isSome ∧ "LOCATION_COUNTRY" ∉ df.cols) ∨
      (qp.product_category.isSome ∧ "PRODUCT_CATEGORY" ∉ df.cols) ∨
      (qp.status.isSome ∧ "STATUS" ∉ df.cols)) :
    ∃ e, parquet_get df qp page psParam = .internalError e := by
  obtain ⟨e, he⟩ := apply_filters_error_of_missing_membership_col df qp hcase
  have hemp : df.rows.isEmpty = false := by
    cases h : df.rows with
    | nil => exact absurd h hne
    | cons a l => rfl
  exact ⟨e, by rw [parquet_get, if_neg (by simp [hemp]), he]⟩

/-- Concrete instantiation: filtering the payment-method-less frame by
payment method produces the internal-error response. -/
theorem c10_missing_membership_column_witness :
    noPayColDF.rows ≠ [] ∧
    ∃ e, parquet_get noPayColDF { payment_method := some ["paypal"] } 1 none =
      .internalError e := by
  refine ⟨by decide, ?_⟩
  exact c10_missing_membership_column_fails_request noPayColDF
    { payment_method := some ["paypal"] } 1 none (by decide) (Or.inl ⟨rfl, by decide⟩)

/- ### C6: out-of-range pages -/
/-- C6. The claim fails on the code: the pagination class inherits the page
machinery, which raises the invalid-page error for a page past the end, and
`BaseParquetView.get` catches it in its blanket handler and answers with
the 500 internal-error payload — not with an empty non-error PageResult. -/
theorem c6_out_of_range_page_counterexample :
    paginate_queryset [sampleRec] 2 none = .error "Invalid page." ∧
    parquet_get { cols := stdCols, rows := [sampleRec] } {} 2 none =
      .internalError "Invalid page." := by
  constructor
  · rfl
  · rfl

/-- C6 (amended). For every item list and every page number beyond
`total_pages`, `paginate_queryset` raises the invalid-page error — which the
view surfaces as a top-level internal-error response — rather than
returning an empty `PageResult`. -/
theorem c6_out_of_range_page_raises (items : List Record) (page : ℤ) (psParam : Option ℤ)
    (h : (numPages items.length (pageSize psParam) : ℤ) < page) :
    paginate_queryset items page psParam = .error "Invalid page." := by
  have hnp : (1 : ℤ) ≤ (numPages items.length (pageSize psParam) : ℤ) := by
    exact_mod_cast Nat.le_max_left 1 _
  rw [paginate_queryset]
  rw [if_neg (by omega), if_pos h]

/-- Concrete instantiation: one item, default page size, page 2 is past the
single page and raises. -/
theorem c6_out_of_range_page_witness :
    ((numPages ([sampleRec] : List Record).length (pageSize none) : ℤ) < 2) ∧
    paginate_queryset [sampleRec] 2 none = .error "Invalid page." :=
  ⟨by decide, c6_out_of_range_page_raises [sampleRec] 2 none (by decide)⟩

set_option maxRecDepth 32768 in
/-- C3. For every merged record list, window length and request instant
(`now` is sampled once and shared by both bounds), the windowed-spend
computation keeps exactly the purchase or payment records with a present
timestamp at least `now - minutes`; it returns the 2-decimal-rounded sum of
their amounts — a missing amount contributing 0 — together with their
count; and on the worked spec example with a 5-minute window it returns
total 20 and count 1. -/
theorem c3_recent_spend_characterisation :
    (∀ (now : ℚ) (minutes : ℤ) (records : List Record),
      recentSpend now minutes records =
        (round2 (sumAmounts (records.filter (spendKeepPred now minutes))),
         (records.filter (spendKeepPred now minutes)).length)) ∧
    recentSpend 6000 5 spendExampleRecs = (20, 1) := by
  constructor
  · intro now minutes records
    rw [recentSpend]
    rw [List.filter_filter, List.filter_filter]
    have hcongr :
        records.filter (fun r =>
          ((r.TRANSACTION_TYPE == some "purchase" || r.TRANSACTION_TYPE == some "payment") &&
            (match r.TIMESTAMP with
             | some t => decide (now - (minutes : ℚ) * 60 ≤ t)
             | none => false)) && r.TIMESTAMP.isSome) =
        records.filter (spendKeepPred now minutes) := by
      refine List.filter_congr fun r _ => ?_
      cases ht : r.TIMESTAMP <;> simp [spendKeepPred, ht]
    rw [hcongr]
  · with_unfolding_all decide

/- ### Sorting lemmas -/
theorem insertBy_perm (le : α → α → Bool) (a : α) (l : List α) :
    (insertBy le a l).Perm (a :: l) := by
  induction l with
  | nil => exact List.Perm.refl _
  | cons b t ih =>
    rw [insertBy]
    by_cases h : le a b = true
    · rw [if_pos h]
    · rw [if_neg h]
      exact ((ih.cons b).trans (List.Perm.swap a b t))

theorem sortBy_perm (le : α → α → Bool) (l : List α) : (sortBy le l).Perm l := by
  induction l with
  | nil => exact List.Perm.refl _
  | cons a t ih =>
    exact (insertBy_perm le a (sortBy le t)).trans (ih.cons a)

theorem mem_insertBy {le : α → α → Bool} {a x : α} {l : List α} :
    x ∈ insertBy le a l ↔ x = a ∨ x ∈ l := by
  constructor
  · intro hx
    have := (insertBy_perm le a l).mem_iff.mp hx
    simpa using this
  · intro hx
    refine (insertBy_perm le a l).mem_iff.mpr ?_
    simpa using hx

theorem insertSortedAsc_subset [LinearOrder α] {a x : α} {l : List α}
    (hx : x ∈ insertSortedAsc a l) : x = a ∨ x ∈ l := by
  induction l with
  | nil => simpa [insertSortedAsc] using hx
  | cons b t ih =>
    rw [insertSortedAsc] at hx
    by_cases h1 : a < b
    · rw [if_pos h1] at hx
      rcases List.mem_cons.mp hx with h | h
      · exact Or.inl h
      · exact Or.inr h
    · rw [if_neg h1] at hx
      by_cases h2 : a = b
      · rw [if_pos h2] at hx
        exact Or.inr hx
      · rw [if_neg h2] at hx
        rcases List.mem_cons.mp hx with h | h
        · exact Or.inr (List.mem_cons.mpr (Or.inl h))
        · rcases ih h with h | h
          · exact Or.inl h
          · exact Or.inr (List.mem_cons.mpr (Or.inr h))

theorem insertSortedAsc_pairwise [LinearOrder α] (a : α) {l : List α}
    (hl : l.Pairwise (· < ·)) : (insertSortedAsc a l).Pairwise (· < ·) := by
  induction l with
  | nil => simp [insertSortedAsc]
  | cons b t ih =>
    rw [insertSortedAsc]
    rcases List.pairwise_cons.mp hl with ⟨hb, ht⟩
    by_cases h1 : a < b
    · rw [if_pos h1]
      exact List.pairwise_cons.mpr ⟨fun x hx => by
        rcases List.mem_cons.mp hx with h | h
        · exact h ▸ h1
        · exact lt_trans h1 (hb x h), hl⟩
    · rw [if_neg h1]
      by_cases h2 : a = b
      · rw [if_pos h2]
        exact hl
      · rw [if_neg h2]
        have hba : b < a := lt_of_le_of_ne (not_lt.mp h1) (Ne.symm h2)
        refine List.pairwise_cons.mpr ⟨fun x hx => ?_, ih ht⟩
        rcases insertSortedAsc_subset hx with h | h
        · exact h ▸ hba
        · exact hb x h

theorem sortedKeys_pairwise [LinearOrder α] (l : List α) :
    (sortedKeys l).Pairwise (· < ·) := by
  induction l with
  | nil => simp [sortedKeys]
  | cons a t ih => exact insertSortedAsc_pairwise a ih

theorem insertBy_user_pairwise (a : UserResult) {m : List UserResult}
    (hm : m.Pairwise userOrdRel) (ha : ∀ b ∈ m, a.user_id < b.user_id) :
    (insertBy (fun x y => decide (y.total_spending ≤ x.total_spending)) a m).Pairwise
      userOrdRel := by
  induction m with
  | nil => simp [insertBy]
  | cons b t ih =>
    rw [insertBy]
    rcases List.pairwise_cons.mp hm with ⟨hb, ht⟩
    by_cases h : (decide (b.total_spending ≤ a.total_spending)) = true
    · rw [if_pos h]
      have hba : b.total_spending ≤ a.total_spending := of_decide_eq_true h
      refine List.pairwise_cons.mpr ⟨fun x hx => ?_, hm⟩
      rcases List.mem_cons.mp hx with hxb | hxt
      · subst hxb
        rcases lt_or_eq_of_le hba with hlt | heq
        · exact Or.inl hlt
        · exact Or.inr ⟨heq.symm, ha x (by simp)⟩
      · rcases hb x hxt with hlt | ⟨heq, _⟩
        · exact Or.inl (lt_of_lt_of_le hlt hba)
        · rcases lt_or_eq_of_le hba with hlt2 | heq2
          · exact Or.inl (heq ▸ hlt2)
          · exact Or.inr ⟨heq2.symm.trans heq, ha x (by simp [hxt])⟩
    · rw [if_neg h]
      have hab : a.total_spending < b.total_spending := by
        have := of_decide_eq_false (Bool.of_not_eq_true h)
        exact lt_of_not_le this
      refine List.pairwise_cons.mpr ⟨fun x hx => ?_, ?_⟩
      · rcases mem_insertBy.mp hx with hxa | hxt
        · exact hxa ▸ Or.inl hab
        · exact hb x hxt
      · exact ih ht (fun c hc => ha c (by simp [hc]))

theorem sortBy_user_pairwise {l : List UserResult}
    (hl : l.Pairwise (fun a b => a.user_id < b.user_id)) :
    (sortBy (fun x y => decide (y.total_spending ≤ x.total_spending)) l).Pairwise
      userOrdRel := by
  induction l with
  | nil => simp [sortBy]
  | cons a t ih =>
    rcases List.pairwise_cons.mp hl with ⟨haid, ht⟩
    refine insertBy_user_pairwise a (ih ht) (fun b hb => ?_)
    exact haid b ((sortBy_perm _ t).mem_iff.mp hb)

/-- C4. For every merged record list, the `users` list of the user-spend
metric is ordered by grand total descending, two users with equal grand
totals appearing in ascending USER_ID order: the group keys come out of the
grouping in ascending order and the final stable descending sort preserves
that order inside every total tie. -/
theorem c4_user_spend_ordered (records : List Record) :
    (userSpend records).Pairwise (fun a b =>
      b.total_spending < a.total_spending ∨
        (a.total_spending = b.total_spending ∧ a.user_id < b.user_id)) := by
  refine sortBy_user_pairwise ?_
  refine List.pairwise_map.mpr ?_
  exact sortedKeys_pairwise _

/- ### C9: unreadable partitions are skipped -/
theorem readLoop_eq_filterMap (parts : List (Option (List Record))) :
    readLoop parts = parts.filterMap id := by
  induction parts with
  | nil => rfl
  | cons p rest ih =>
    cases p with
    | none => simpa [readLoop] using ih
    | some part => simpa [readLoop] using ih

/-- C9. The partition read loop keeps exactly the readable partitions, in
order, and the loaded frame holds exactly the concatenation of their
records (up to the final timestamp ordering): a partition that fails to
read is skipped without aborting the load, and losing one partition never
loses the others. -/
theorem c9_unreadable_partitions_skipped (hasTs : Bool)
    (parts : List (Option (List Record))) :
    readLoop parts = parts.filterMap id ∧
    (load_parquet_files hasTs parts).Perm (parts.filterMap id).flatten := by
  refine ⟨readLoop_eq_filterMap parts, ?_⟩
  rw [load_parquet_files, readLoop_eq_filterMap]
  cases h : parts.filterMap id with
  | nil => simp
  | cons d ds =>
    cases hasTs with
    | true => simpa using sortBy_perm tsDescLe (d :: ds).flatten
    | false => simp

set_option maxRecDepth 32768 in
/-- C5. The claim fails on the code: `K < 1` is not clamped to 1. With two
ranked products available, `limit=0` returns no product at all (where the
claim promises one), while `limit=1` indeed returns one. -/
theorem c5_limit_below_one_counterexample :
    (topProducts (some 0) topSampleRecs).products = [] ∧
    (topProducts (some 1) topSampleRecs).products.length = 1 := by
  constructor
  · with_unfolding_all decide
  · with_unfolding_all decide

/-- C5 (amended). `K` defaults to 10 when absent and a `K` below 1 is never
an error, but it is fed to `head` unclamped: `K = 0` yields zero products,
and a negative `K` yields all but the last `|K|` ranked products — in
particular one fewer than available for `K = -1`, not one product. -/
theorem c5_limit_default_and_head_semantics :
    (∀ records : List Record, topProducts none records = topProducts (some 10) records) ∧
    (∀ records : List Record, (topProducts (some 0) records).products = []) ∧
    (∀ (k : ℤ) (records : List Record), k < 0 →
      (topProducts (some k) records).products.length =
        ((numRankedProducts records : ℤ) + k).toNat) := by
  refine ⟨fun records => rfl, ?_, ?_⟩
  · intro records
    by_cases h : (records.filter (fun r => r.TRANSACTION_TYPE == some "purchase")).isEmpty
    · simp [topProducts, h]
    · simp [topProducts, h, pandasHead]
  · intro k records hk
    by_cases h : (records.filter (fun r => r.TRANSACTION_TYPE == some "purchase")).isEmpty
    · have hlen : numRankedProducts records = 0 := by
        rw [numRankedProducts, List.isEmpty_iff.mp h]
        rfl
      simp [topProducts, h, hlen]
      omega
    · have hsort : (sortBy (fun a b => decide (b.2.1 ≤ a.2.1))
        (productAggs (records.filter (fun r => r.TRANSACTION_TYPE == some "purchase")))).length =
          numRankedProducts records :=
        (sortBy_perm _ _).length_eq
      have hk0 : ¬(0 : ℤ) ≤ k := by omega
      simp only [topProducts, Option.getD_some]
      rw [if_neg h]
      simp only [pandasHead, if_neg hk0, List.length_map, List.length_take]
      rw [hsort]
      omega

set_option maxRecDepth 32768 in
/-- Concrete instantiation of the amended K semantics: with two ranked
products, `limit=-1` keeps one product, and the default equals `limit=10`. -/
theorem c5_limit_default_and_head_semantics_witness :
    topProducts none topSampleRecs = topProducts (some 10) topSampleRecs ∧
    ((-1 : ℤ) < 0 ∧
      (topProducts (some (-1)) topSampleRecs).products.length =
        ((numRankedProducts topSampleRecs : ℤ) + -1).toNat) ∧
    (topProducts (some (-1)) topSampleRecs).products.length = 1 := by
  refine ⟨c5_limit_default_and_head_semantics.1 topSampleRecs,
    ⟨by decide, c5_limit_default_and_head_semantics.2.2 (-1) topSampleRecs (by decide)⟩, ?_⟩
  with_unfolding_all decide
